import Mathlib

/-!
# `record.c`: the WAV recording session

A shallow embedding of `src/record.c` (SDL2 audio capture to `audio.wav`
with a live waveform) and the properties of its recording state machine.

Modelling conventions.

* A byte is a `Nat` (intended range `0..255`); a file is a `List Nat` with a
  write cursor.  No theorem below needs the range restriction.
* The host is little-endian (the build line of the source targets Apple
  silicon), so `SDL_SwapLE16/32` are the identity and a raw `fwrite` of an
  integer object writes its bytes least-significant first.
* `int` and `uint16_t/uint32_t` conversions are written with explicit
  `% 2^16`, `% 2^32`.  The `long` byte counter `audio_data_size` is a `Nat`:
  it only grows by buffer lengths and its 64-bit range is never approached.
* The audio callback runs on SDL's audio thread; here each callback and each
  handled window event is one atomic step of a single transition system.
* `stdio` calls are assumed to succeed, except `fopen`, whose outcome is part
  of the space-key event.
-/

namespace Record

/-! ## Little-endian fields -/

/-- Conversion of a C `int` value to `uint16_t`. -/
def to_u16 (x : Int) : Nat := (x % 65536).toNat

/-- Conversion of a C `int` value to `uint32_t`. -/
def to_u32 (x : Int) : Nat := (x % 4294967296).toNat

/-- Memory image of a `uint16_t` on the little-endian host. -/
def le16 (v : Nat) : List Nat := [v % 256, v / 256 % 256]

/-- Memory image of a `uint32_t` (or the first four bytes of a `long`) on the
little-endian host. -/
def le32 (v : Nat) : List Nat :=
  [v % 256, v / 256 % 256, v / 65536 % 256, v / 16777216 % 256]

/-- Value of the two-byte little-endian field at offset `off`. -/
def rd16 (bs : List Nat) (off : Nat) : Nat :=
  bs.getD off 0 + 256 * bs.getD (off + 1) 0

/-- Value of the four-byte little-endian field at offset `off`. -/
def rd32 (bs : List Nat) (off : Nat) : Nat :=
  bs.getD off 0 + 256 * bs.getD (off + 1) 0 + 65536 * bs.getD (off + 2) 0
    + 16777216 * bs.getD (off + 3) 0

/-! ## `WavHeader` (lines 8-28) -/

/-- The packed `WavHeader` struct. -/
structure WavHeader where
  chunk_id : List Nat
  chunk_size : Nat
  format : List Nat
  subchunk1_id : List Nat
  subchunk1_size : Nat
  audio_format : Nat
  num_channels : Nat
  sample_rate : Nat
  byte_rate : Nat
  block_align : Nat
  bits_per_sample : Nat
  subchunk2_id : List Nat
  subchunk2_size : Nat

/-- Memory image of the struct under `#pragma pack(1)`: the fields in
declaration order, without padding. -/
def WavHeader.bytes (h : WavHeader) : List Nat :=
  h.chunk_id ++ le32 h.chunk_size ++ h.format
    ++ h.subchunk1_id ++ le32 h.subchunk1_size ++ le16 h.audio_format
    ++ le16 h.num_channels ++ le32 h.sample_rate ++ le32 h.byte_rate
    ++ le16 h.block_align ++ le16 h.bits_per_sample
    ++ h.subchunk2_id ++ le32 h.subchunk2_size

/-- The value of `sizeof(WavHeader)`. -/
def sizeof_WavHeader : Nat := 44

/-! ## The `stdio` stream -/

/-- An open `FILE*`: the bytes of the file and the position of the cursor. -/
structure FILE where
  data : List Nat
  pos : Nat
deriving DecidableEq, Repr

/-- The stream `fopen(path, "wb")` returns: an empty file, cursor at 0. -/
def fopen_wb : FILE := { data := [], pos := 0 }

/-- The call `fseek(file, off, SEEK_SET)`. -/
def fseek (file : FILE) (off : Nat) : FILE := { file with pos := off }

/-- The call `fwrite` of the bytes `bs`: they overwrite the file from the cursor on
and extend it where they run past its end (a gap before the cursor reads as
zeros); the cursor advances by their number.  Writing nothing changes
nothing. -/
def fwrite (bs : List Nat) (file : FILE) : FILE :=
  if bs.isEmpty then file
  else
    { data := file.data.take file.pos
                ++ List.replicate (file.pos - file.data.length) 0
                ++ bs ++ file.data.drop (file.pos + bs.length),
      pos := file.pos + bs.length }

/-! ## `write_wav_header` (lines 63-79) -/

/-- The header value built by the designated initializer of
`write_wav_header`; members it does not name (`chunk_size`,
`subchunk2_size`) are zero.  The products are taken in `int` and stored
into unsigned fields, i.e. reduced modulo the field width. -/
def wav_header_init (channels sample_rate bits_per_sample : Int) : WavHeader :=
  { chunk_id := ['R', 'I', 'F', 'F'].map Char.toNat,
    chunk_size := 0,
    format := ['W', 'A', 'V', 'E'].map Char.toNat,
    subchunk1_id := ['f', 'm', 't', ' '].map Char.toNat,
    subchunk1_size := 16,
    audio_format := 1,
    num_channels := to_u16 channels,
    sample_rate := to_u32 sample_rate,
    bits_per_sample := to_u16 bits_per_sample,
    byte_rate := to_u32 (sample_rate * channels * (Int.tdiv bits_per_sample 8)),
    block_align := to_u16 (channels * (Int.tdiv bits_per_sample 8)),
    subchunk2_id := ['d', 'a', 't', 'a'].map Char.toNat,
    subchunk2_size := 0 }

/-- The function `write_wav_header`: seek to 0, write the header image. -/
def write_wav_header (file : FILE) (channels sample_rate bits_per_sample : Int) : FILE :=
  let header := wav_header_init channels sample_rate bits_per_sample
  fwrite header.bytes (fseek file 0)

/-! ## Process state (lines 30-35 and the locals of `main`) -/

/-- The value of `AUDIO_S16LSB` in `SDL_audio.h`. -/
def AUDIO_S16LSB : Nat := 0x8010

/-- The value of `INT16_MAX`. -/
def INT16_MAX : Int := 32767

/-- The value of `INT16_MIN`. -/
def INT16_MIN : Int := -32768

/-- The fields of the negotiated `SDL_AudioSpec obtained` the program reads.
The rate SDL reports is positive, so `freq` is a `Nat`. -/
structure AudioSpec where
  freq : Nat
  format : Nat
  channels : Nat
deriving DecidableEq, Repr

/-- The globals of `record.c`, the capture status of the device, the content
of `audio.wav` as left by the last `fopen`/`fclose`, and whether `main` is
still in its event loop.  `opened` and `finalized` are history counters that
the program does not read: the number of successful `fopen` calls and the
number of executions of the header update block (lines 205-216). -/
structure State where
  audio_file : Option FILE
  audio_data_size : Nat
  minV : Int
  maxV : Int
  audio_buffer : Option (List Nat)
  audio_buffer_len : Nat
  playing : Bool
  disk : Option (List Nat)
  running : Bool
  opened : Nat
  finalized : Nat
deriving DecidableEq, Repr

/-- State on entry to the event loop: globals at their initializers, device
paused (line 164), `audio.wav` removed (line 189). -/
def init : State :=
  { audio_file := none, audio_data_size := 0, minV := INT16_MAX, maxV := INT16_MIN,
    audio_buffer := none, audio_buffer_len := 0, playing := false, disk := none,
    running := true, opened := 0, finalized := 0 }

/-! ## `audio_callback` (lines 37-61) -/

/-- The sample `SDL_SwapLE16(*(int16_t*)(stream + i))` for the two bytes at
`stream + i`. -/
def sample_of (b0 b1 : Nat) : Int :=
  let u := (b0 + 256 * b1) % 65536
  if u < 32768 then (u : Int) else (u : Int) - 65536

/-- The loop of lines 49-53 over the bytes from `stream + i` on, carrying
`(minV, maxV)`.  With an odd number of bytes left the C code reads one byte
past the buffer; that byte is taken as 0 here (SDL only delivers whole
samples). -/
def scan_samples : List Nat → Int × Int → Int × Int
  | [], mm => mm
  | [b0], (mn, mx) =>
      let sample := sample_of b0 0
      let mn := if sample < mn then sample else mn
      let mx := if sample > mx then sample else mx
      (mn, mx)
  | b0 :: b1 :: rest, (mn, mx) =>
      let sample := sample_of b0 b1
      let mn := if sample < mn then sample else mn
      let mx := if sample > mx then sample else mx
      scan_samples rest (mn, mx)

/-- The function `audio_callback(&obtained, stream, len)` with `len = stream.length`. -/
def audio_callback (spec : AudioSpec) (stream : List Nat) (s : State) : State :=
  match s.audio_file with
  | some file =>
      let s := { s with audio_buffer := some stream, audio_buffer_len := stream.length }
      if spec.format = AUDIO_S16LSB then
        let mm := scan_samples stream (s.minV, s.maxV)
        { s with audio_file := some (fwrite stream file),
                 minV := mm.1, maxV := mm.2,
                 audio_data_size := s.audio_data_size + stream.length }
      else s
  | none => s

/-! ## The event loop of `main` (lines 194-246, 289-301) -/

/-- What the event loop reacts to: the three window events it tests for, and a
buffer handed to `audio_callback` by SDL.  The space key carries the outcome
of the `fopen` call it may make. -/
inductive Event where
  | quit
  | escape
  | space (fopen_ok : Bool)
  | deliver (stream : List Nat)
deriving DecidableEq, Repr

/-- The label `cleanup:` (lines 289-301): close the stream if one is open,
free the snapshot buffer, leave `main`. -/
def cleanup (s : State) : State :=
  let s := match s.audio_file with
    | some file => { s with disk := some file.data, audio_file := none }
    | none => s
  { s with audio_buffer := none, running := false }

/-- The Escape key (lines 203-219). -/
def on_escape (s : State) : State :=
  let s := match s.audio_file with
    | some file =>
        let file := fseek file 0
        let chunk_size := (s.audio_data_size + sizeof_WavHeader - 8) % 4294967296
        let file := fwrite (['R', 'I', 'F', 'F'].map Char.toNat) file
        let file := fwrite (le32 chunk_size) file
        let file := fseek file (sizeof_WavHeader - 4)
        let file := fwrite (le32 s.audio_data_size) file
        { s with disk := some file.data, audio_file := none, audio_data_size := 0,
                 finalized := s.finalized + 1 }
    | none => s
  cleanup s

/-- The space key (lines 220-244). -/
def on_space (spec : AudioSpec) (fopen_ok : Bool) (s : State) : State :=
  if s.playing then
    let s := { s with playing := false }
    match s.audio_file with
    | some file =>
        let silence := List.replicate (spec.freq * 2) 0
        { s with audio_file := some (fwrite silence file) }
    | none => s
  else
    match s.audio_file with
    | none =>
        if fopen_ok then
          let file := write_wav_header fopen_wb spec.channels spec.freq 16
          let file := fseek file sizeof_WavHeader
          { s with audio_file := some file, disk := some [], opened := s.opened + 1,
                   playing := true }
        else s
    | some _ => { s with playing := true }

/-- One handled event.  After `cleanup` nothing is handled any more. -/
def step (spec : AudioSpec) (s : State) (e : Event) : State :=
  if s.running then
    match e with
    | Event.quit => cleanup s
    | Event.escape => on_escape s
    | Event.space ok => on_space spec ok s
    | Event.deliver stream => audio_callback spec stream s
  else s

/-- The events of a list, handled in order. -/
def run (spec : AudioSpec) (s : State) (evs : List Event) : State :=
  evs.foldl (step spec) s

/-! ## One frame of the display (lines 166-168, 248-286) -/

/-- The local `window_width` of `main`. -/
def window_width : Nat := 320

/-- The local `window_height` of `main`. -/
def window_height : Nat := 240 / 3

/-- The renderer calls of one frame.  The two colour components of a gradient
line are `float` expressions in `y`; the call is recorded with `y` only. -/
inductive DrawCmd where
  | SetRenderDrawColor (r g b a : Nat)
  | SetGradientDrawColor (y : Nat)
  | RenderClear
  | RenderDrawLine (x1 y1 x2 y2 : Int)
  | RenderDrawPoint (x y : Int)
  | RenderPresent
deriving DecidableEq, Repr

/-- The read `((int16_t*)audio_buffer)[x]` on the little-endian host.  Bytes
past the end of the buffer (the loop does not check `audio_buffer_len`) are
taken as 0. -/
def buffer_sample (buf : List Nat) (x : Nat) : Int :=
  sample_of (buf.getD (2 * x) 0) (buf.getD (2 * x + 1) 0)

/-- The offset `(int)(norm * window_height / 2)` added to `y` at line 280, for
`norm = sample / 32768.0 * 7.0`.  For a 16-bit `sample` every intermediate
value is an integer of fewer than 24 bits divided by a power of two, so
the `float`/`double` operations are exact, and `(int)` truncates toward
zero. -/
def wave_offset (sample : Int) : Int :=
  Int.tdiv (sample * 7 * (window_height : Int)) (32768 * 2)

/-- The `y` passed to `SDL_RenderDrawPoint` for column `x` (lines 275-281). -/
def wave_y (audio_buffer : Option (List Nat)) (x : Nat) : Int :=
  let y : Int := ((window_height / 2 : Nat) : Int)
  match audio_buffer with
  | some buf => y + wave_offset (buffer_sample buf x)
  | none => y

/-- The gradient branch (lines 265-269). -/
def draw_gradient : List DrawCmd :=
  (List.range window_height).flatMap fun (y : Nat) =>
    [DrawCmd.SetGradientDrawColor y,
     DrawCmd.RenderDrawLine 0 (Int.ofNat y) (Int.ofNat window_width) (Int.ofNat y)]

/-- The waveform branch (lines 272-283). -/
def draw_waveform (audio_buffer : Option (List Nat)) : List DrawCmd :=
  DrawCmd.SetRenderDrawColor 255 255 255 255 ::
    (List.range window_width).map fun (x : Nat) =>
      DrawCmd.RenderDrawPoint (Int.ofNat x) (wave_y audio_buffer x)

/-- The renderer calls of one iteration of the outer loop (lines 248-286); the
progress `printf` is left out. -/
def render (s : State) : List DrawCmd :=
  let colour :=
    if s.audio_file.isSome then DrawCmd.SetRenderDrawColor 255 0 0 255
    else DrawCmd.SetRenderDrawColor 0 100 255 255
  let body :=
    if s.audio_file.isSome && !s.playing then draw_gradient
    else draw_waveform s.audio_buffer
  colour :: DrawCmd.RenderClear :: body ++ [DrawCmd.RenderPresent]

/-- Whether a renderer call draws a gradient line. -/
def DrawCmd.is_line : DrawCmd → Bool
  | DrawCmd.RenderDrawLine _ _ _ _ => true
  | _ => false

/-- Whether a renderer call draws a waveform point. -/
def DrawCmd.is_point : DrawCmd → Bool
  | DrawCmd.RenderDrawPoint _ _ => true
  | _ => false

/-! ## Reference notions used in the statements -/

/-- The little-endian signed 16-bit samples of a byte buffer, in order (a
trailing odd byte is not a sample). -/
def samples16 : List Nat → List Int
  | b0 :: b1 :: rest => sample_of b0 b1 :: samples16 rest
  | _ => []

/-- The 44 bytes `write_wav_header` puts in a fresh `audio.wav` for the
negotiated format (line 238). -/
def header_at_open (spec : AudioSpec) : List Nat :=
  (write_wav_header fopen_wb spec.channels spec.freq 16).data

/-- The stream of an open session whose data region holds `rest`: the header
written at open, then `rest`, cursor at the end. -/
def session_file (spec : AudioSpec) (rest : List Nat) : FILE :=
  { data := header_at_open spec ++ rest, pos := 44 + rest.length }

/-- The negotiated format of the two scenarios of the specification: 8 Hz,
mono, S16LSB. -/
def mono8 : AudioSpec := { freq := 8, format := AUDIO_S16LSB, channels := 1 }

/-- A stop signal follows a start: the first Escape key of the sequence comes
after a space key whose `fopen` succeeds. -/
def stop_follows_start (evs : List Event) : Prop :=
  ∃ pre post, evs = pre ++ Event.escape :: post ∧ Event.escape ∉ pre ∧ Event.space true ∈ pre

/-- What holds in every state the event loop can reach. -/
def Inv (spec : AudioSpec) (s : State) : Prop :=
  s.finalized ≤ s.opened ∧ s.opened ≤ 1 ∧
  (∀ file, s.audio_file = some file →
    s.running = true ∧ s.opened = 1 ∧ s.finalized = 0 ∧ ∃ rest, file = session_file spec rest) ∧
  (s.audio_file = none → s.running = true → s.opened = 0 ∧ s.playing = false)

/-! ## Arithmetic of the fields -/

theorem to_u16_natCast (n : Nat) : to_u16 (n : Int) = n % 65536 := by
  unfold to_u16; omega

theorem to_u32_natCast (n : Nat) : to_u32 (n : Int) = n % 4294967296 := by
  unfold to_u32; omega

theorem tdiv_natCast (m n : Nat) : Int.tdiv (m : Int) (n : Int) = ((m / n : Nat) : Int) :=
  (Int.ofNat_tdiv m n).symm

theorem tdiv_cases (a b : Int) (hb : 0 < b) :
    (0 ≤ a ∧ Int.tdiv a b = a / b) ∨ (a < 0 ∧ Int.tdiv a b = -((-a) / b)) := by
  rcases le_or_lt 0 a with h | h
  · exact Or.inl ⟨h, Int.tdiv_eq_ediv h hb.le⟩
  · refine Or.inr ⟨h, ?_⟩
    have h1 : Int.tdiv (-a) b = (-a) / b := Int.tdiv_eq_ediv (by omega) hb.le
    have h2 : Int.tdiv (-a) b = -(Int.tdiv a b) := Int.neg_tdiv a b
    omega

theorem le16_mod (v : Nat) : le16 (v % 65536) = le16 v := by
  simp only [le16, List.cons.injEq, and_true]; omega

theorem le32_mod (v : Nat) : le32 (v % 4294967296) = le32 v := by
  simp only [le32, List.cons.injEq, and_true]; omega

theorem sample_of_range (b0 b1 : Nat) :
    -32768 ≤ sample_of b0 b1 ∧ sample_of b0 b1 ≤ 32767 := by
  unfold sample_of
  dsimp only
  split <;> omega

/-! ## C3: the header image -/

/-- C3 (input where the claim fails): channels = 256, sample_rate = 1 and
bits_per_sample = 2048 each fit their header field, but the block-align
field of the written header reads 0, while
`channels * (bits_per_sample / 8)` is 65536. -/
theorem block_align_field_wraps :
    (256 : Nat) < 65536 ∧ (1 : Nat) < 4294967296 ∧ (2048 : Nat) < 65536 ∧
    rd16 (write_wav_header fopen_wb (256 : Nat) (1 : Nat) (2048 : Nat)).data 32 = 0 ∧
    256 * (2048 / 8) = 65536 ∧
    rd16 (write_wav_header fopen_wb (256 : Nat) (1 : Nat) (2048 : Nat)).data 32
      ≠ 256 * (2048 / 8) := by
  decide

/-- C3 (amended): for channels, sample_rate and bits_per_sample that fit
their header fields, `write_wav_header` puts the cursor at 44 and replaces
the first 44 bytes of the file by "RIFF", four zero bytes, "WAVE", "fmt ",
16, 1, the channel count, the sample rate, the byte rate
`sample_rate * channels * (bits_per_sample / 8)` modulo 2^32, the
block align `channels * (bits_per_sample / 8)` modulo 2^16, the bits per
sample, "data" and four zero bytes, every number little-endian; on a fresh
file these 44 bytes are the whole content. -/
theorem write_wav_header_image (file : FILE) (channels sample_rate bits_per_sample : Nat)
    (hc : channels < 65536) (hr : sample_rate < 4294967296)
    (hb : bits_per_sample < 65536) :
    write_wav_header file (channels : Int) (sample_rate : Int) (bits_per_sample : Int) =
      { data :=
          ['R', 'I', 'F', 'F'].map Char.toNat ++ [0, 0, 0, 0]
            ++ ['W', 'A', 'V', 'E'].map Char.toNat
            ++ ['f', 'm', 't', ' '].map Char.toNat ++ le32 16 ++ le16 1
            ++ le16 channels ++ le32 sample_rate
            ++ le32 (sample_rate * channels * (bits_per_sample / 8) % 4294967296)
            ++ le16 (channels * (bits_per_sample / 8) % 65536)
            ++ le16 bits_per_sample
            ++ ['d', 'a', 't', 'a'].map Char.toNat ++ [0, 0, 0, 0]
            ++ file.data.drop 44,
        pos := 44 }
    ∧ (write_wav_header fopen_wb (channels : Int) (sample_rate : Int)
          (bits_per_sample : Int)).data.length = 44 := by
  have h8 : Int.tdiv (bits_per_sample : Int) 8 = ((bits_per_sample / 8 : Nat) : Int) :=
    tdiv_natCast bits_per_sample 8
  have e1 : to_u32 ((sample_rate : Int) * (channels : Int) * Int.tdiv (bits_per_sample : Int) 8)
      = sample_rate * channels * (bits_per_sample / 8) % 4294967296 := by
    rw [h8, ← to_u32_natCast]; push_cast; rfl
  have e2 : to_u16 ((channels : Int) * Int.tdiv (bits_per_sample : Int) 8)
      = channels * (bits_per_sample / 8) % 65536 := by
    rw [h8, ← to_u16_natCast]; push_cast; rfl
  have e3 : to_u16 (channels : Int) = channels := by
    rw [to_u16_natCast]; exact Nat.mod_eq_of_lt hc
  have e4 : to_u32 (sample_rate : Int) = sample_rate := by
    rw [to_u32_natCast]; exact Nat.mod_eq_of_lt hr
  have e5 : to_u16 (bits_per_sample : Int) = bits_per_sample := by
    rw [to_u16_natCast]; exact Nat.mod_eq_of_lt hb
  simp only [write_wav_header, wav_header_init, e1, e2, e3, e4, e5]
  simp [WavHeader.bytes, fwrite, fseek, fopen_wb, le32, le16]

/-- C3 (instance): the header of a fresh mono 8 Hz 16-bit file. -/
theorem write_wav_header_image_witness :
    ((1 : Nat) < 65536 ∧ (8 : Nat) < 4294967296 ∧ (16 : Nat) < 65536) ∧
    write_wav_header fopen_wb (1 : Nat) (8 : Nat) (16 : Nat) =
      { data := [82, 73, 70, 70, 0, 0, 0, 0, 87, 65, 86, 69, 102, 109, 116, 32,
                 16, 0, 0, 0, 1, 0, 1, 0, 8, 0, 0, 0, 16, 0, 0, 0, 2, 0, 16, 0,
                 100, 97, 116, 97, 0, 0, 0, 0],
        pos := 44 } :=
  ⟨by decide,
    (write_wav_header_image fopen_wb 1 8 16 (by decide) (by decide) (by decide)).1.trans
      (by decide)⟩

/-! ## C8: a format other than S16LSB -/

/-- C8: with a session open and a negotiated format other than
`AUDIO_S16LSB`, `audio_callback` leaves the stream (content and cursor),
`audio_data_size`, `minV`, `maxV` and the file on disk as they were, and
the snapshot buffer becomes a copy of the delivered bytes, with its
length. -/
theorem audio_callback_other_format (spec : AudioSpec) (stream : List Nat) (s : State)
    (file : FILE) (hopen : s.audio_file = some file) (hfmt : spec.format ≠ AUDIO_S16LSB) :
    audio_callback spec stream s
      = { s with audio_buffer := some stream, audio_buffer_len := stream.length } ∧
    (audio_callback spec stream s).audio_file = some file ∧
    (audio_callback spec stream s).audio_data_size = s.audio_data_size ∧
    (audio_callback spec stream s).minV = s.minV ∧
    (audio_callback spec stream s).maxV = s.maxV ∧
    (audio_callback spec stream s).disk = s.disk ∧
    (audio_callback spec stream s).audio_buffer = some stream := by
  simp [audio_callback, hopen, hfmt]

/-- C8 (instance): an open session whose device negotiated `AUDIO_U8` (format
code 8) receives the bytes 1, 2, 3. -/
theorem audio_callback_other_format_witness :
    (run { freq := 8, format := 8, channels := 1 } init [Event.space true]).audio_file
      = some { data := header_at_open { freq := 8, format := 8, channels := 1 }, pos := 44 } ∧
    (8 : Nat) ≠ AUDIO_S16LSB ∧
    (audio_callback { freq := 8, format := 8, channels := 1 } [1, 2, 3]
      (run { freq := 8, format := 8, channels := 1 } init [Event.space true])).audio_data_size
      = 0 :=
  ⟨by decide, by decide,
    (audio_callback_other_format { freq := 8, format := 8, channels := 1 } [1, 2, 3]
      (run { freq := 8, format := 8, channels := 1 } init [Event.space true])
      { data := header_at_open { freq := 8, format := 8, channels := 1 }, pos := 44 }
      (by decide) (by decide)).2.2.1⟩

/-! ## C10: the height of a waveform point -/

set_option maxRecDepth 100000 in
/-- C10 (input where the claim fails): with the sample 32767 in column 0 of
the snapshot buffer of a running capture, the frame contains the call
`SDL_RenderDrawPoint(renderer, 0, 319)`, and 319 is not below
`window_height`. -/
theorem wave_point_off_surface :
    DrawCmd.RenderDrawPoint 0 319 ∈
      render (run { freq := 44100, format := AUDIO_S16LSB, channels := 2 } init
        [Event.space true, Event.deliver (List.replicate 320 [255, 127]).flatten]) ∧
    ¬ ((319 : Int) < window_height) := by
  decide

/-- C10 (amended): the `y` passed to the draw-point call for column `x` of
a snapshot buffer is `40 + trunc(280 * s / 32768)` for the sample `s` read
there; it is not clamped: it lies between -240 and 319, and it is on the
surface (`0 <= y < window_height`) exactly when `-4798 <= s <= 4681`. -/
theorem wave_y_range (buf : List Nat) (x : Nat) :
    wave_y (some buf) x = 40 + Int.tdiv (280 * buffer_sample buf x) 32768 ∧
    -240 ≤ wave_y (some buf) x ∧ wave_y (some buf) x ≤ 319 ∧
    ((0 ≤ wave_y (some buf) x ∧ wave_y (some buf) x < window_height) ↔
      (-4798 ≤ buffer_sample buf x ∧ buffer_sample buf x ≤ 4681)) := by
  have hr := sample_of_range (buf.getD (2 * x) 0) (buf.getD (2 * x + 1) 0)
  have hy : wave_y (some buf) x
      = 40 + Int.tdiv (buffer_sample buf x * 7 * 80) 65536 := rfl
  have hw : ((window_height : Nat) : Int) = 80 := rfl
  rw [hy, hw]
  change -32768 ≤ buffer_sample buf x ∧ buffer_sample buf x ≤ 32767 at hr
  generalize buffer_sample buf x = v at hr ⊢
  rcases tdiv_cases (v * 7 * 80) 65536 (by norm_num) with ⟨h0, h1⟩ | ⟨h0, h1⟩ <;>
  rcases tdiv_cases (280 * v) 32768 (by norm_num) with ⟨h2, h3⟩ | ⟨h2, h3⟩ <;>
  rw [h1, h3] <;> omega

/-! ## C9: the frame drawn when no session is open -/

theorem draw_gradient_no_point : draw_gradient.any DrawCmd.is_point = false := by
  decide

theorem draw_gradient_has_line : draw_gradient.any DrawCmd.is_line = true := by
  decide

theorem draw_waveform_no_line (buf : Option (List Nat)) :
    (draw_waveform buf).any DrawCmd.is_line = false := by
  simp [draw_waveform, DrawCmd.is_line]

theorem draw_waveform_has_point (buf : Option (List Nat)) :
    (draw_waveform buf).any DrawCmd.is_point = true := by
  refine List.any_eq_true.mpr ⟨DrawCmd.RenderDrawPoint (Int.ofNat 0) (wave_y buf 0), ?_, rfl⟩
  exact List.mem_cons_of_mem _ (List.mem_map.mpr ⟨0, by decide, rfl⟩)

/-- The gradient is drawn exactly in the frames of an open session whose device
is not capturing; every other frame draws the waveform points. -/
theorem render_branch (s : State) :
    ((render s).any DrawCmd.is_line = true ↔ (s.audio_file.isSome = true ∧ s.playing = false)) ∧
    ((render s).any DrawCmd.is_point = true ↔ ¬ (s.audio_file.isSome = true ∧ s.playing = false)) := by
  have hg := draw_gradient_no_point
  have hl := draw_gradient_has_line
  have hw := draw_waveform_no_line s.audio_buffer
  have hp := draw_waveform_has_point s.audio_buffer
  cases hf : s.audio_file.isSome <;> cases hpl : s.playing <;>
    simp [render, hf, hpl, hg, hl, hw, hp, DrawCmd.is_line, DrawCmd.is_point]

set_option maxRecDepth 100000 in
/-- C9 (input where the claim fails): in the state on entry to the event
loop no session is open (`audio_file` is NULL), and the frame drawn there
has the 320 waveform points, at mid-height 40, and no gradient line. -/
theorem idle_frame_is_waveform :
    init.audio_file = none ∧
    (render init).any DrawCmd.is_line = false ∧
    DrawCmd.RenderDrawPoint 0 40 ∈ render init ∧
    ((render init).filter DrawCmd.is_point).length = 320 := by
  decide

/-- C9 (amended): in every state with no session open (`audio_file` is NULL),
whatever the snapshot buffer holds, one loop iteration clears to the colour
(0, 100, 255), draws the white waveform points of the snapshot buffer (at
mid-height where the buffer is NULL) and presents; it draws no gradient
line. -/
theorem render_no_session (s : State) (hidle : s.audio_file = none) :
    render s =
      DrawCmd.SetRenderDrawColor 0 100 255 255 :: DrawCmd.RenderClear ::
        draw_waveform s.audio_buffer ++ [DrawCmd.RenderPresent] ∧
    (render s).any DrawCmd.is_line = false ∧
    (render s).any DrawCmd.is_point = true ∧
    (s.audio_buffer = none →
      ∀ x y, DrawCmd.RenderDrawPoint x y ∈ render s → y = 40) := by
  have hw := draw_waveform_no_line s.audio_buffer
  have hp := draw_waveform_has_point s.audio_buffer
  refine ⟨by simp [render, hidle], ?_, ?_, ?_⟩
  · simp [render, hidle, hw, DrawCmd.is_line]
  · simp [render, hidle, hp, DrawCmd.is_point]
  · intro hb x y hmem
    have hr : render s = DrawCmd.SetRenderDrawColor 0 100 255 255 :: DrawCmd.RenderClear ::
        draw_waveform none ++ [DrawCmd.RenderPresent] := by simp [render, hidle, hb]
    rw [hr] at hmem
    rcases List.mem_cons.mp hmem with h | h
    · cases h
    rcases List.mem_cons.mp h with h | h
    · cases h
    rcases List.mem_append.mp h with h | h
    · rcases List.mem_cons.mp h with h | h
      · cases h
      obtain ⟨a, _, h2⟩ := List.mem_map.mp h
      have h3 := (DrawCmd.RenderDrawPoint.inj h2).2
      rw [← h3]; rfl
    · rcases List.mem_singleton.mp h with h
      cases h

/-- C9 (instance): the state on entry to the event loop. -/
theorem render_no_session_witness :
    init.audio_file = none ∧ (render init).any DrawCmd.is_line = false :=
  ⟨rfl, (render_no_session init rfl).2.1⟩

/-! ## The stream of a session -/

theorem header_at_open_length (spec : AudioSpec) : (header_at_open spec).length = 44 := by
  simp [header_at_open, write_wav_header, wav_header_init, WavHeader.bytes, le32, le16,
    fwrite, fseek, fopen_wb]

theorem fwrite_session (spec : AudioSpec) (rest bs : List Nat) :
    fwrite bs (session_file spec rest) = session_file spec (rest ++ bs) := by
  have hH := header_at_open_length spec
  unfold fwrite session_file
  by_cases hbs : bs = []
  · subst hbs; simp
  · have he : bs.isEmpty = false := by
      cases bs with
      | nil => exact absurd rfl hbs
      | cons _ _ => rfl
    have hlen : (header_at_open spec ++ rest).length = 44 + rest.length := by
      simp [hH]
    simp only [he, Bool.false_eq_true, if_false]
    rw [← hlen, List.take_length, Nat.sub_self, List.replicate_zero, List.append_nil,
      List.drop_eq_nil_of_le (Nat.le_add_right _ _), List.append_nil]
    simp [hH, Nat.add_assoc]

theorem open_session_file (spec : AudioSpec) :
    fseek (write_wav_header fopen_wb spec.channels spec.freq 16) sizeof_WavHeader
      = session_file spec [] := by
  have hH := header_at_open_length spec
  have hp : (write_wav_header fopen_wb spec.channels spec.freq 16).pos = 44 := by
    simp [write_wav_header, wav_header_init, WavHeader.bytes, le32, le16,
      fwrite, fseek, fopen_wb]
  simp [session_file, fseek, header_at_open, sizeof_WavHeader]

/-! ## Handlers on an open session -/

theorem step_not_running (spec : AudioSpec) (s : State) (e : Event)
    (h : s.running = false) : step spec s e = s := by
  simp [step, h]

theorem run_not_running (spec : AudioSpec) (s : State) (evs : List Event)
    (h : s.running = false) : run spec s evs = s := by
  induction evs with
  | nil => rfl
  | cons e es ih =>
      show run spec (step spec s e) es = s
      rw [step_not_running spec s e h]; exact ih

theorem run_cons (spec : AudioSpec) (s : State) (e : Event) (evs : List Event) :
    run spec s (e :: evs) = run spec (step spec s e) evs := rfl

theorem run_append (spec : AudioSpec) (s : State) (evs evs2 : List Event) :
    run spec s (evs ++ evs2) = run spec (run spec s evs) evs2 := by
  simp [run, List.foldl_append]

theorem Inv_init (spec : AudioSpec) : Inv spec init := by
  simp [Inv, init]

theorem Inv_step (spec : AudioSpec) (s : State) (e : Event) (h : Inv spec s) :
    Inv spec (step spec s e) := by
  obtain ⟨h1, h2, h3, h4⟩ := h
  by_cases hr : s.running = true
  swap
  · have hr2 : s.running = false := by simpa using hr
    rw [step_not_running _ _ _ hr2]; exact ⟨h1, h2, h3, h4⟩
  cases hf : s.audio_file with
  | none =>
      obtain ⟨ho, hp⟩ := h4 hf hr
      have hfin : s.finalized = 0 := by omega
      cases e with
      | quit => simp [step, hr, cleanup, hf, Inv, ho, hfin]
      | escape => simp [step, hr, on_escape, cleanup, hf, Inv, ho, hfin]
      | space ok =>
          cases ok with
          | false => simp [step, hr, on_space, hf, Inv, ho, hfin, hp]
          | true =>
              simp only [step, hr, on_space, hf, Inv, ho, hfin, hp, open_session_file]
              simp
      | deliver stream => simp [step, hr, audio_callback, hf, Inv, ho, hfin, hp]
  | some file =>
      obtain ⟨_, ho, hfin, rest, rfl⟩ := h3 file hf
      cases e with
      | quit => simp [step, hr, cleanup, hf, Inv, ho, hfin]
      | escape => simp [step, hr, on_escape, cleanup, hf, Inv, ho, hfin]
      | space ok =>
          cases hpl : s.playing with
          | false => simp [step, hr, on_space, hf, Inv, ho, hfin, hpl]
          | true =>
              simp only [step, hr, on_space, hf, Inv, ho, hfin, hpl, fwrite_session]
              simp
      | deliver stream =>
          by_cases hfmt : spec.format = AUDIO_S16LSB
          · simp only [step, hr, audio_callback, hf, Inv, ho, hfin, hfmt, fwrite_session]
            simp
          · simp [step, hr, audio_callback, hf, Inv, ho, hfin, hfmt]

theorem Inv_run (spec : AudioSpec) (evs : List Event) (s : State) (h : Inv spec s) :
    Inv spec (run spec s evs) := by
  induction evs generalizing s with
  | nil => exact h
  | cons e es ih => exact ih _ (Inv_step spec s e h)

/-! ## C2: the header after the Escape key -/

theorem on_escape_session (spec : AudioSpec) (s : State) (rest : List Nat)
    (hopen : s.audio_file = some (session_file spec rest)) :
    (on_escape s).disk = some
      ((header_at_open spec).take 4
        ++ le32 ((s.audio_data_size + 36) % 4294967296)
        ++ ((header_at_open spec).drop 8).take 32
        ++ le32 (s.audio_data_size % 4294967296) ++ rest) := by
  rw [le32_mod s.audio_data_size]
  simp [on_escape, hopen, cleanup, session_file, header_at_open, write_wav_header,
    wav_header_init, WavHeader.bytes, fwrite, fseek, fopen_wb, sizeof_WavHeader, le32, le16]

theorem rd32_le32 (pre post : List Nat) (v : Nat) (hv : v < 4294967296) :
    rd32 (pre ++ le32 v ++ post) pre.length = v := by
  simp only [rd32, le32, List.getD_eq_getElem?_getD, List.append_assoc]
  rw [List.getElem?_append_right (Nat.le_refl _),
    List.getElem?_append_right (Nat.le_add_right _ _),
    List.getElem?_append_right (Nat.le_add_right _ _),
    List.getElem?_append_right (Nat.le_add_right _ _)]
  simp only [Nat.sub_self, Nat.add_sub_cancel_left]
  simp
  omega

theorem patched_same_bytes (H rest A B : List Nat) (hH : H.length = 44)
    (hA : A.length = 4) (i : Nat) (hi : i < 4 ∨ (8 ≤ i ∧ i < 40)) :
    (H.take 4 ++ A ++ (H.drop 8).take 32 ++ B ++ rest).getD i 0 = H.getD i 0 := by
  simp only [List.getD_eq_getElem?_getD]
  congr 1
  rcases hi with hi | ⟨h1, h2⟩
  · rw [List.append_assoc, List.append_assoc, List.append_assoc,
      List.getElem?_append_left (by simp [hH]; omega)]
    rw [List.getElem?_take_of_lt hi]
  · rw [List.append_assoc, List.getElem?_append_left (by simp [hH, hA]; omega),
      List.getElem?_append_right (by simp [hH, hA]; omega)]
    rw [List.getElem?_take_of_lt (by simp [hH, hA]; omega), List.getElem?_drop]
    congr 1
    simp [hH, hA]; omega

/-- C2: in every state the event loop reaches with a session open and counter
value `n = audio_data_size`, the first 44 bytes of the stream are still the
header written at open, and the Escape key leaves on disk a file whose first
44 bytes are that header with bytes 4..7 replaced by the little-endian image
of `(n + 36) mod 2^32` and bytes 40..43 by that of `n mod 2^32`, followed by
the unchanged data region; read back, overall size = `(n + 36) mod 2^32`
and data size = `n mod 2^32`. -/
theorem escape_patches_header (spec : AudioSpec) (evs : List Event) (file : FILE)
    (hopen : (run spec init evs).audio_file = some file) :
    file.data.take 44 = header_at_open spec ∧
    ∃ d, (step spec (run spec init evs) Event.escape).disk = some d ∧
      d.take 44 =
        (header_at_open spec).take 4
          ++ le32 (((run spec init evs).audio_data_size + 36) % 4294967296)
          ++ ((header_at_open spec).drop 8).take 32
          ++ le32 ((run spec init evs).audio_data_size % 4294967296) ∧
      d.drop 44 = file.data.drop 44 ∧
      (∀ i, i < 4 ∨ (8 ≤ i ∧ i < 40) → d.getD i 0 = (header_at_open spec).getD i 0) ∧
      rd32 d 4 = ((run spec init evs).audio_data_size + 36) % 4294967296 ∧
      rd32 d 40 = (run spec init evs).audio_data_size % 4294967296 := by
  obtain ⟨_, _, h3, _⟩ := Inv_run spec evs init (Inv_init spec)
  obtain ⟨hr, _, _, rest, rfl⟩ := h3 file hopen
  have hH := header_at_open_length spec
  generalize run spec init evs = s at hopen hr ⊢
  have hstep : step spec s Event.escape = on_escape s := by simp [step, hr]
  have h4 : ((header_at_open spec).take 4).length = 4 := by simp [hH]
  have h32 : (((header_at_open spec).drop 8).take 32).length = 32 := by simp [hH]
  have hl (v : Nat) : (le32 v).length = 4 := rfl
  refine ⟨by simp [session_file, hH],
    (header_at_open spec).take 4
      ++ le32 ((s.audio_data_size + 36) % 4294967296)
      ++ ((header_at_open spec).drop 8).take 32
      ++ le32 (s.audio_data_size % 4294967296) ++ rest, ?_, ?_, ?_, ?_, ?_, ?_⟩
  · rw [hstep]; exact on_escape_session spec s rest hopen
  · rw [List.take_left']
    simp [h4, h32, hl]
  · have hd : (session_file spec rest).data.drop 44 = rest := by
      simp [session_file, ← hH]
    rw [hd, List.drop_left']
    simp [h4, h32, hl]
  · intro i hi
    exact patched_same_bytes _ rest _ _ hH (hl _) i hi
  · have := rd32_le32 ((header_at_open spec).take 4)
      (((header_at_open spec).drop 8).take 32
        ++ le32 (s.audio_data_size % 4294967296) ++ rest)
      ((s.audio_data_size + 36) % 4294967296) (Nat.mod_lt _ (by norm_num))
    rw [h4] at this
    simpa [List.append_assoc] using this
  · have := rd32_le32 ((header_at_open spec).take 4
        ++ le32 ((s.audio_data_size + 36) % 4294967296)
        ++ ((header_at_open spec).drop 8).take 32) rest
      (s.audio_data_size % 4294967296) (Nat.mod_lt _ (by norm_num))
    rw [show ((header_at_open spec).take 4
        ++ le32 ((s.audio_data_size + 36) % 4294967296)
        ++ ((header_at_open spec).drop 8).take 32).length = 40 by simp [h4, h32, hl]] at this
    exact this

set_option maxRecDepth 100000 in
/-- C2 (instance): a session at 8 Hz mono that has received two bytes. -/
theorem escape_patches_header_witness :
    (run mono8 init [Event.space true, Event.deliver [1, 2]]).audio_file
      = some (session_file mono8 [1, 2]) ∧
    (session_file mono8 [1, 2]).data.take 44 = header_at_open mono8 :=
  ⟨by decide,
    (escape_patches_header mono8 [Event.space true, Event.deliver [1, 2]]
      (session_file mono8 [1, 2]) (by decide)).1⟩

/-! ## C7: running minimum and maximum -/

theorem scan_samples_fold (n : Nat) : ∀ (bs : List Nat), bs.length = 2 * n → ∀ (mn mx : Int),
    scan_samples bs (mn, mx)
      = ((samples16 bs).foldl min mn, (samples16 bs).foldl max mx) := by
  induction n with
  | zero =>
      intro bs hbs mn mx
      have : bs = [] := List.length_eq_zero.mp (by omega)
      subst this; rfl
  | succ k ih =>
      intro bs hbs mn mx
      match bs, hbs with
      | b0 :: b1 :: rest, hbs =>
          have hrest : rest.length = 2 * k := by simp at hbs; omega
          have hmin : (if sample_of b0 b1 < mn then sample_of b0 b1 else mn)
              = min mn (sample_of b0 b1) := by
            rw [min_def]; split_ifs <;> omega
          have hmax : (if sample_of b0 b1 > mx then sample_of b0 b1 else mx)
              = max mx (sample_of b0 b1) := by
            rw [max_def]; split_ifs <;> omega
          simp only [scan_samples, samples16, List.foldl_cons, hmin, hmax]
          exact ih rest hrest _ _

theorem foldl_min_spec (ss : List Int) : ∀ (m0 : Int),
    ss.foldl min m0 ≤ m0 ∧ (∀ v ∈ ss, ss.foldl min m0 ≤ v) ∧
      (ss.foldl min m0 = m0 ∨ ss.foldl min m0 ∈ ss) := by
  induction ss with
  | nil => intro m0; simp
  | cons a as ih =>
      intro m0
      obtain ⟨h1, h2, h3⟩ := ih (min m0 a)
      simp only [List.foldl_cons, List.mem_cons]
      refine ⟨le_trans h1 (min_le_left _ _), ?_, ?_⟩
      · rintro v (rfl | hv)
        · exact le_trans h1 (min_le_right _ _)
        · exact h2 v hv
      · rcases h3 with h | h
        · rcases min_choice m0 a with hm | hm
          · exact Or.inl (h.trans hm)
          · exact Or.inr (Or.inl (h.trans hm))
        · exact Or.inr (Or.inr h)

theorem foldl_max_spec (ss : List Int) : ∀ (m0 : Int),
    m0 ≤ ss.foldl max m0 ∧ (∀ v ∈ ss, v ≤ ss.foldl max m0) ∧
      (ss.foldl max m0 = m0 ∨ ss.foldl max m0 ∈ ss) := by
  induction ss with
  | nil => intro m0; simp
  | cons a as ih =>
      intro m0
      obtain ⟨h1, h2, h3⟩ := ih (max m0 a)
      simp only [List.foldl_cons, List.mem_cons]
      refine ⟨le_trans (le_max_left _ _) h1, ?_, ?_⟩
      · rintro v (rfl | hv)
        · exact le_trans (le_max_right _ _) h1
        · exact h2 v hv
      · rcases h3 with h | h
        · rcases max_choice m0 a with hm | hm
          · exact Or.inl (h.trans hm)
          · exact Or.inr (Or.inl (h.trans hm))
        · exact Or.inr (Or.inr h)

theorem samples16_range (bs : List Nat) : ∀ v ∈ samples16 bs, -32768 ≤ v ∧ v ≤ 32767 := by
  induction bs using samples16.induct with
  | case1 b0 b1 rest ih =>
      intro v hv
      simp only [samples16, List.mem_cons] at hv
      rcases hv with rfl | hv
      · exact sample_of_range b0 b1
      · exact ih v hv
  | case2 bs h =>
      intro v hv
      unfold samples16 at hv
      split at hv
      · exact absurd rfl (h _ _ _)
      · simp at hv

theorem run_deliveries_minmax (spec : AudioSpec) (hfmt : spec.format = AUDIO_S16LSB) :
    ∀ (ds : List (List Nat)) (s : State), s.running = true → s.audio_file.isSome = true →
      (∀ d ∈ ds, d.length % 2 = 0) →
      (run spec s (ds.map Event.deliver)).minV = (ds.flatMap samples16).foldl min s.minV ∧
      (run spec s (ds.map Event.deliver)).maxV = (ds.flatMap samples16).foldl max s.maxV := by
  intro ds
  induction ds with
  | nil => intro s _ _ _; exact ⟨rfl, rfl⟩
  | cons d ds ih =>
      intro s hr hf hev
      obtain ⟨file, hfile⟩ := Option.isSome_iff_exists.mp hf
      obtain ⟨n, hn⟩ : ∃ n, d.length = 2 * n :=
        ⟨d.length / 2, by have := hev d (List.mem_cons_self _ _); omega⟩
      have hscan := scan_samples_fold n d hn s.minV s.maxV
      rw [List.map_cons, run_cons, List.flatMap_cons, List.foldl_append, List.foldl_append]
      have hstep : step spec s (Event.deliver d) = audio_callback spec d s := by
        simp [step, hr]
      rw [hstep]
      have h1 : (audio_callback spec d s).running = true := by
        simp [audio_callback, hfile, hfmt, hr]
      have h2 : (audio_callback spec d s).audio_file.isSome = true := by
        simp [audio_callback, hfile, hfmt]
      have h3 : (audio_callback spec d s).minV = (samples16 d).foldl min s.minV := by
        simp [audio_callback, hfile, hfmt, hscan]
      have h4 : (audio_callback spec d s).maxV = (samples16 d).foldl max s.maxV := by
        simp [audio_callback, hfile, hfmt, hscan]
      have := ih (audio_callback spec d s) h1 h2
        (fun d' hd' => hev d' (List.mem_cons_of_mem _ hd'))
      rw [h3, h4] at this
      exact this

/-- C7: starting from a state with a session open, `minV = INT16_MAX` and
`maxV = INT16_MIN`, after any sequence of even-length S16LSB deliveries
`minV` is at most, and `maxV` at least, every delivered little-endian 16-bit
sample; and as soon as one sample has been delivered, `minV` and `maxV` are
themselves delivered samples, i.e. they are the minimum and the maximum of
the delivered samples. -/
theorem running_min_max (spec : AudioSpec) (s : State) (file : FILE) (ds : List (List Nat))
    (hfmt : spec.format = AUDIO_S16LSB) (hrun : s.running = true)
    (hopen : s.audio_file = some file)
    (hmin : s.minV = INT16_MAX) (hmax : s.maxV = INT16_MIN)
    (heven : ∀ d ∈ ds, d.length % 2 = 0) :
    (∀ v ∈ ds.flatMap samples16,
      (run spec s (ds.map Event.deliver)).minV ≤ v ∧
      v ≤ (run spec s (ds.map Event.deliver)).maxV) ∧
    (ds.flatMap samples16 ≠ [] →
      (ds.flatMap samples16).minimum = ((run spec s (ds.map Event.deliver)).minV : WithTop Int) ∧
      (ds.flatMap samples16).maximum
        = ((run spec s (ds.map Event.deliver)).maxV : WithBot Int)) := by
  obtain ⟨e1, e2⟩ := run_deliveries_minmax spec hfmt ds s hrun (by simp [hopen]) heven
  rw [e1, e2, hmin, hmax]
  obtain ⟨a1, a2, a3⟩ := foldl_min_spec (ds.flatMap samples16) INT16_MAX
  obtain ⟨b1, b2, b3⟩ := foldl_max_spec (ds.flatMap samples16) INT16_MIN
  have hrange : ∀ v ∈ ds.flatMap samples16, -32768 ≤ v ∧ v ≤ 32767 := by
    intro v hv
    obtain ⟨d, _, hd⟩ := List.mem_flatMap.mp hv
    exact samples16_range d v hd
  refine ⟨fun v hv => ⟨a2 v hv, b2 v hv⟩, fun hne => ?_⟩
  obtain ⟨w, hw⟩ := List.exists_mem_of_ne_nil _ hne
  constructor
  · rw [List.minimum_eq_coe_iff]
    refine ⟨?_, a2⟩
    rcases a3 with h | h
    · have h5 := a2 w hw
      have h6 := (hrange w hw).2
      have : w = List.foldl min INT16_MAX (ds.flatMap samples16) := by
        rw [h] at h5 ⊢; unfold INT16_MAX at h5 ⊢; omega
      rw [← this]; exact hw
    · exact h
  · rw [List.maximum_eq_coe_iff]
    refine ⟨?_, b2⟩
    rcases b3 with h | h
    · have h5 := b2 w hw
      have h6 := (hrange w hw).1
      have : w = List.foldl max INT16_MIN (ds.flatMap samples16) := by
        rw [h] at h5 ⊢; unfold INT16_MIN at h5 ⊢; omega
      rw [← this]; exact hw
    · exact h

set_option maxRecDepth 100000 in
/-- C7 (instance): the delivery [100, -200, 300, -32768] to a fresh session
at 8 Hz mono gives min = -32768 and max = 300. -/
theorem running_min_max_witness :
    [[100, 0, 56, 255, 44, 1, 0, 128]].flatMap samples16 = [100, -200, 300, -32768] ∧
    (run mono8 (run mono8 init [Event.space true])
      ([[100, 0, 56, 255, 44, 1, 0, 128]].map Event.deliver)).minV = -32768 ∧
    (run mono8 (run mono8 init [Event.space true])
      ([[100, 0, 56, 255, 44, 1, 0, 128]].map Event.deliver)).maxV = 300 ∧
    ([[100, 0, 56, 255, 44, 1, 0, 128]].flatMap samples16).minimum =
      (((run mono8 (run mono8 init [Event.space true])
        ([[100, 0, 56, 255, 44, 1, 0, 128]].map Event.deliver)).minV : Int) : WithTop Int) :=
  ⟨by decide, by decide, by decide,
    ((running_min_max mono8 (run mono8 init [Event.space true]) (session_file mono8 [])
      [[100, 0, 56, 255, 44, 1, 0, 128]] rfl (by decide) (by decide) (by decide) (by decide)
      (by decide)).2 (by decide)).1⟩

/-! ## C6: the silence written at a pause -/

theorem run_deliveries_file (spec : AudioSpec) (hfmt : spec.format = AUDIO_S16LSB) :
    ∀ (ds : List (List Nat)) (s : State) (rest : List Nat), s.running = true →
      s.audio_file = some (session_file spec rest) →
      (run spec s (ds.map Event.deliver)).audio_file
        = some (session_file spec (rest ++ ds.flatten)) := by
  intro ds
  induction ds with
  | nil => intro s rest _ hf; simpa [run] using hf
  | cons d ds ih =>
      intro s rest hr hf
      rw [List.map_cons, run_cons]
      have h1 : (step spec s (Event.deliver d)).running = true := by
        simp [step, hr, audio_callback, hf, hfmt]
      have h2 : (step spec s (Event.deliver d)).audio_file
          = some (session_file spec (rest ++ d)) := by
        simp [step, hr, audio_callback, hf, hfmt, fwrite_session]
      rw [ih _ _ h1 h2, List.flatten_cons, List.append_assoc]

/-- C6: in every state the event loop reaches with a session open and the
device capturing, the space key (pause) writes `freq * 2` zero bytes at the
cursor, which is the end of the file, and stops the device; after the next
space key (resume) the bytes of all following S16LSB deliveries come after
these zero bytes in the file. -/
theorem pause_writes_silence (spec : AudioSpec) (evs : List Event) (file : FILE)
    (ok ok2 : Bool) (ds : List (List Nat)) (hfmt : spec.format = AUDIO_S16LSB)
    (hopen : (run spec init evs).audio_file = some file)
    (hplay : (run spec init evs).playing = true) :
    file.pos = file.data.length ∧
    (step spec (run spec init evs) (Event.space ok)).audio_file
      = some (fwrite (List.replicate (spec.freq * 2) 0) file) ∧
    (fwrite (List.replicate (spec.freq * 2) 0) file).data
      = file.data ++ List.replicate (spec.freq * 2) 0 ∧
    (step spec (run spec init evs) (Event.space ok)).playing = false ∧
    (run spec (run spec init evs)
        (Event.space ok :: Event.space ok2 :: ds.map Event.deliver)).audio_file.map FILE.data
      = some (file.data ++ List.replicate (spec.freq * 2) 0 ++ ds.flatten) := by
  obtain ⟨_, _, h3, _⟩ := Inv_run spec evs init (Inv_init spec)
  obtain ⟨hr, _, _, rest, rfl⟩ := h3 file hopen
  have hH := header_at_open_length spec
  generalize run spec init evs = s at hopen hr hplay ⊢
  have hs1 : step spec s (Event.space ok)
      = { s with playing := false,
                 audio_file := some (session_file spec (rest ++ List.replicate (spec.freq * 2) 0)) } := by
    simp [step, hr, on_space, hplay, hopen, fwrite_session]
  have hs2 : step spec (step spec s (Event.space ok)) (Event.space ok2)
      = { s with playing := true,
                 audio_file := some (session_file spec (rest ++ List.replicate (spec.freq * 2) 0)) } := by
    rw [hs1]; simp [step, hr, on_space]
  refine ⟨by simp [session_file, hH], ?_, ?_, ?_, ?_⟩
  · rw [hs1, fwrite_session]
  · rw [fwrite_session]; simp [session_file]
  · rw [hs1]
  · rw [run_cons, run_cons, hs2]
    have hd := run_deliveries_file spec hfmt ds
      { s with playing := true,
               audio_file := some (session_file spec (rest ++ List.replicate (spec.freq * 2) 0)) }
      (rest ++ List.replicate (spec.freq * 2) 0) hr rfl
    rw [hd]
    simp [session_file]

set_option maxRecDepth 100000 in
/-- C6 (instance): at sample rate 8, start, pause, resume, deliver 10 bytes
gives a data region of 16 zero bytes followed by the 10 delivered bytes. -/
theorem pause_writes_silence_witness :
    (run mono8 init [Event.space true]).audio_file = some (session_file mono8 []) ∧
    (run mono8 init [Event.space true]).playing = true ∧
    ((run mono8 (run mono8 init [Event.space true])
        (Event.space true :: Event.space true ::
          [[1, 2, 3, 4, 5, 6, 7, 8, 9, 10]].map Event.deliver)).audio_file.map FILE.data
      = some ((session_file mono8 []).data ++ List.replicate (mono8.freq * 2) 0
          ++ [[1, 2, 3, 4, 5, 6, 7, 8, 9, 10]].flatten)) ∧
    (session_file mono8 []).data.drop 44 ++ List.replicate (mono8.freq * 2) 0
        ++ [[1, 2, 3, 4, 5, 6, 7, 8, 9, 10]].flatten
      = [0, 0, 0, 0, 0, 0, 0, 0, 0, 0, 0, 0, 0, 0, 0, 0, 1, 2, 3, 4, 5, 6, 7, 8, 9, 10] :=
  ⟨by decide, by decide,
    (pause_writes_silence mono8 [Event.space true] (session_file mono8 []) true true
      [[1, 2, 3, 4, 5, 6, 7, 8, 9, 10]] rfl (by decide) (by decide)).2.2.2.2,
    by decide⟩

/-! ## C4: how often the header is finalized -/

theorem stop_follows_start_nil : ¬ stop_follows_start [] := by
  rintro ⟨pre, post, h, _, _⟩
  cases pre <;> simp at h

theorem stop_follows_start_escape (es : List Event) :
    ¬ stop_follows_start (Event.escape :: es) := by
  rintro ⟨pre, post, h, hne, hs⟩
  cases pre with
  | nil => simp at hs
  | cons p pre' =>
      simp only [List.cons_append, List.cons.injEq] at h
      exact hne (h.1 ▸ List.mem_cons_self _ _)

theorem stop_follows_start_skip (e : Event) (es : List Event)
    (h1 : e ≠ Event.escape) (h2 : e ≠ Event.space true) :
    stop_follows_start (e :: es) ↔ stop_follows_start es := by
  constructor
  · rintro ⟨pre, post, h, hne, hs⟩
    cases pre with
    | nil => simp at hs
    | cons p pre' =>
        simp only [List.cons_append, List.cons.injEq] at h
        obtain ⟨rfl, rfl⟩ := h
        refine ⟨pre', post, rfl, fun hm => hne (List.mem_cons_of_mem _ hm), ?_⟩
        rcases List.mem_cons.mp hs with h | h
        · exact absurd h.symm h2
        · exact h
  · rintro ⟨pre, post, rfl, hne, hs⟩
    refine ⟨e :: pre, post, rfl, ?_, List.mem_cons_of_mem _ hs⟩
    intro hm
    rcases List.mem_cons.mp hm with h | h
    · exact h1 h.symm
    · exact hne h

theorem stop_follows_start_started (es : List Event) :
    stop_follows_start (Event.space true :: es) ↔ Event.escape ∈ es := by
  constructor
  · rintro ⟨pre, post, h, _, hs⟩
    cases pre with
    | nil => simp at hs
    | cons p pre' =>
        simp only [List.cons_append, List.cons.injEq] at h
        rw [h.2]; simp
  · intro hm
    obtain ⟨as, bs, rfl, hn⟩ := List.eq_append_cons_of_mem hm
    refine ⟨Event.space true :: as, bs, rfl, ?_, List.mem_cons_self _ _⟩
    intro h
    rcases List.mem_cons.mp h with h | h
    · cases h
    · exact hn h

theorem finalized_open (spec : AudioSpec) : ∀ (evs : List Event) (s : State),
    Event.quit ∉ evs → s.running = true → s.audio_file.isSome = true → s.finalized = 0 →
    ((run spec s evs).finalized = 1 ↔ Event.escape ∈ evs) := by
  intro evs
  induction evs with
  | nil => intro s _ _ _ h0; simp [run, h0]
  | cons e es ih =>
      intro s hq hr hf h0
      obtain ⟨file, hfile⟩ := Option.isSome_iff_exists.mp hf
      have hq2 : Event.quit ∉ es := fun h => hq (List.mem_cons_of_mem _ h)
      rw [run_cons]
      cases e with
      | quit => exact absurd (List.mem_cons_self _ _) hq
      | escape =>
          have h1 : (step spec s Event.escape).running = false := by
            simp [step, hr, on_escape, cleanup, hfile]
          have h2 : (step spec s Event.escape).finalized = 1 := by
            simp [step, hr, on_escape, cleanup, hfile, h0]
          rw [run_not_running _ _ _ h1, h2]; simp
      | space ok =>
          have h1 : (step spec s (Event.space ok)).running = true := by
            cases hp : s.playing <;> simp [step, hr, on_space, hfile, hp]
          have h2 : (step spec s (Event.space ok)).audio_file.isSome = true := by
            cases hp : s.playing <;> simp [step, hr, on_space, hfile, hp]
          have h3 : (step spec s (Event.space ok)).finalized = 0 := by
            cases hp : s.playing <;> simp [step, hr, on_space, hfile, hp, h0]
          rw [ih _ hq2 h1 h2 h3]; simp
      | deliver d =>
          have h1 : (step spec s (Event.deliver d)).running = true := by
            by_cases hfmt : spec.format = AUDIO_S16LSB <;>
              simp [step, hr, audio_callback, hfile, hfmt]
          have h2 : (step spec s (Event.deliver d)).audio_file.isSome = true := by
            by_cases hfmt : spec.format = AUDIO_S16LSB <;>
              simp [step, hr, audio_callback, hfile, hfmt]
          have h3 : (step spec s (Event.deliver d)).finalized = 0 := by
            by_cases hfmt : spec.format = AUDIO_S16LSB <;>
              simp [step, hr, audio_callback, hfile, hfmt, h0]
          rw [ih _ hq2 h1 h2 h3]; simp

theorem finalized_idle (spec : AudioSpec) : ∀ (evs : List Event) (s : State),
    Event.quit ∉ evs → s.running = true → s.audio_file = none → s.playing = false →
    s.finalized = 0 →
    ((run spec s evs).finalized = 1 ↔ stop_follows_start evs) := by
  intro evs
  induction evs with
  | nil =>
      intro s _ _ _ _ h0
      simp [run, h0, stop_follows_start_nil]
  | cons e es ih =>
      intro s hq hr hf hp h0
      have hq2 : Event.quit ∉ es := fun h => hq (List.mem_cons_of_mem _ h)
      rw [run_cons]
      cases e with
      | quit => exact absurd (List.mem_cons_self _ _) hq
      | escape =>
          have h1 : (step spec s Event.escape).running = false := by
            simp [step, hr, on_escape, cleanup, hf]
          have h2 : (step spec s Event.escape).finalized = 0 := by
            simp [step, hr, on_escape, cleanup, hf, h0]
          rw [run_not_running _ _ _ h1, h2]
          simp [stop_follows_start_escape]
      | space ok =>
          cases ok with
          | false =>
              have h1 : step spec s (Event.space false) = s := by
                simp [step, hr, on_space, hf, hp]
              rw [h1, ih s hq2 hr hf hp h0,
                stop_follows_start_skip _ _ (by simp) (by simp)]
          | true =>
              have h1 : (step spec s (Event.space true)).running = true := by
                simp [step, hr, on_space, hf, hp]
              have h2 : (step spec s (Event.space true)).audio_file.isSome = true := by
                simp [step, hr, on_space, hf, hp]
              have h3 : (step spec s (Event.space true)).finalized = 0 := by
                simp [step, hr, on_space, hf, hp, h0]
              rw [finalized_open spec es _ hq2 h1 h2 h3, stop_follows_start_started]
      | deliver d =>
          have h1 : step spec s (Event.deliver d) = s := by
            simp [step, hr, audio_callback, hf]
          rw [h1, ih s hq2 hr hf hp h0,
            stop_follows_start_skip _ _ (by simp) (by simp)]

/-- C4: for every sequence of space-key, Escape and delivery events (no
`SDL_QUIT`) handled from program start, the header update block has run at
most once and at most as often as a session was opened, and at most one
session was opened; it has run exactly once if and only if a stop follows a
start; and the Escape key with no session open only leaves the loop: the
file on disk, the stream, the counter, `minV`, `maxV` and the device status
are unchanged. -/
theorem finalize_at_most_once (spec : AudioSpec) (evs : List Event)
    (hsig : Event.quit ∉ evs) :
    (run spec init evs).finalized ≤ (run spec init evs).opened ∧
    (run spec init evs).opened ≤ 1 ∧
    ((run spec init evs).finalized = 1 ↔ stop_follows_start evs) ∧
    (∀ s : State, s.running = true → s.audio_file = none →
      step spec s Event.escape = { s with audio_buffer := none, running := false }) := by
  obtain ⟨h1, h2, _, _⟩ := Inv_run spec evs init (Inv_init spec)
  refine ⟨h1, h2, finalized_idle spec evs init hsig rfl rfl rfl rfl, ?_⟩
  intro s hr hf
  simp [step, hr, on_escape, cleanup, hf]

/-- C4 (instance): start, pause, resume, stop: a stop follows a start, and
the header update block has run exactly once. -/
theorem finalize_at_most_once_witness :
    Event.quit ∉ [Event.space true, Event.space true, Event.space true, Event.escape] ∧
    stop_follows_start [Event.space true, Event.space true, Event.space true, Event.escape] ∧
    (run mono8 init
      [Event.space true, Event.space true, Event.space true, Event.escape]).finalized = 1 :=
  ⟨by decide,
    ⟨[Event.space true, Event.space true, Event.space true], [], rfl, by decide, by decide⟩,
    (finalize_at_most_once mono8
      [Event.space true, Event.space true, Event.space true, Event.escape]
      (by decide)).2.2.1.mpr
      ⟨[Event.space true, Event.space true, Event.space true], [], rfl, by decide, by decide⟩⟩

/-! ## C1 and C5: what the header declares -/

set_option maxRecDepth 100000 in
/-- C1 (the code at the failing input): at 8 Hz mono, after start and pause
the stream holds 16 bytes after the header while `audio_data_size` is 0;
after start, pause, resume, a delivery of 10 bytes and Escape the file has
a data region of 26 bytes, a data-size field of 10 and an overall-size field
of 46. -/
theorem silence_not_counted :
    (run mono8 init [Event.space true, Event.space true]).audio_data_size = 0 ∧
    (run mono8 init [Event.space true, Event.space true]).audio_file.map
        (fun file => file.data.length - 44) = some 16 ∧
    (run mono8 init [Event.space true, Event.space true, Event.space true,
        Event.deliver [1, 2, 3, 4, 5, 6, 7, 8, 9, 10], Event.escape]).disk.map
        (fun d => (d.length - 44, rd32 d 40, rd32 d 4)) = some (26, 10, 46) := by
  decide

set_option maxRecDepth 100000 in
/-- C5 (the code at the failing input): at 8 Hz mono, after start, a delivery
of 2 bytes and `SDL_QUIT`, the header update block has not run and the file
on disk is the header written at open, size fields still 0, followed by the
2 bytes. -/
theorem quit_skips_header_update :
    (run mono8 init [Event.space true, Event.deliver [1, 2], Event.quit]).finalized = 0 ∧
    (run mono8 init [Event.space true, Event.deliver [1, 2], Event.quit]).running = false ∧
    (run mono8 init [Event.space true, Event.deliver [1, 2], Event.quit]).disk
      = some (header_at_open mono8 ++ [1, 2]) ∧
    rd32 (header_at_open mono8 ++ [1, 2]) 4 = 0 ∧
    rd32 (header_at_open mono8 ++ [1, 2]) 40 = 0 := by
  decide

end Record
